import Mathlib

/-!
Verification of `truvari/bench.py` and `truvari/annotations/trf.py`.

The Python sources are shallowly embedded below.  Pure functions become Lean
functions; the stateful loops of the pickers and of the stats writer become
explicit state passing (a step function folded over the input list).  Python
unbounded integers are modelled as `Int`, Python floats appearing in the
claims as `Rat`, Python `None`-able values as `Option`.
-/

namespace Truvari

/-- A VCF variant record, reduced to the attributes `bench.py` reads from it:
`srep` is the Python `str(entry)` used as a dictionary/set key by the pickers,
and `size` is `truvari.entry_size(entry)`. -/
structure Variant where
  srep : String
  size : Int
  deriving Repr, DecidableEq

/-- Modelled from the spec: `truvari.MatchResult` (the class lives outside the
two source files).  Fields follow spec §3: optional base/comp sides, the seven
similarity measures, composite `score`, boolean `state`, `multi` flag, and the
`matid` string.  `base_gt`/`comp_gt` carry `str(match.base_gt)` /
`str(match.comp_gt)` and `base_gt_count`/`comp_gt_count` the allele-count
capacities read by the genotype-aware picker.  Default field values follow
spec §3/§4.5 (`state = false`, sides absent). -/
structure MatchResult where
  base : Option Variant := none
  comp : Option Variant := none
  seqsim : Option Rat := none
  sizesim : Option Rat := none
  ovlpct : Option Rat := none
  sizediff : Option Rat := none
  st_dist : Option Int := none
  ed_dist : Option Int := none
  gt_match : Option Int := none
  score : Option Rat := none
  state : Bool := false
  multi : Bool := false
  matid : String := ""
  base_gt : String := ""
  comp_gt : String := ""
  base_gt_count : Int := 0
  comp_gt_count : Int := 0
  deriving Repr, DecidableEq

/-- Python `str()` of an optional variant: `str(None) = "None"`. -/
def vkey : Option Variant → String
  | none => "None"
  | some v => v.srep

/-- Modelled from the spec: rank of the `state` flag in the §4.2 total order
(`state = true` ranks above `state = false`).  `MatchResult.__lt__` lives
outside the two source files. -/
def stateRank (m : MatchResult) : Nat := if m.state then 1 else 0

/-- Modelled from the spec: the §4.2 total order on MatchResults, as a
"ranks at least as high as" test: state, then composite score (missing = 0),
then smaller `|start distance|`, then smaller `|size difference|`. -/
def rankGE (a b : MatchResult) : Prop :=
  stateRank b < stateRank a ∨
    (stateRank a = stateRank b ∧
      (a.score.getD 0 > b.score.getD 0 ∨
        (a.score.getD 0 = b.score.getD 0 ∧
          ((a.st_dist.getD 0).natAbs < (b.st_dist.getD 0).natAbs ∨
            ((a.st_dist.getD 0).natAbs = (b.st_dist.getD 0).natAbs ∧
              |a.sizediff.getD 0| ≤ |b.sizediff.getD 0|)))))

instance : DecidableRel rankGE := by
  intro a b
  unfold rankGE
  infer_instance

/-- Insert into a list that is (intended to be) sorted highest-rank first. -/
def insertDesc (m : MatchResult) : List MatchResult → List MatchResult
  | [] => [m]
  | x :: xs => if rankGE m x then m :: x :: xs else x :: insertDesc m xs

/-- `np.ravel` + ascending `sort` + reversed (`[::-1]`) walk of the pickers,
modelled as one descending sort of the flattened matrix. -/
def sortDesc : List MatchResult → List MatchResult
  | [] => []
  | x :: xs => insertDesc x (sortDesc xs)

theorem insertDesc_perm (m : MatchResult) (l : List MatchResult) :
    List.Perm (insertDesc m l) (m :: l) := by
  induction l with
  | nil => simp [insertDesc]
  | cons x xs ih =>
      by_cases h : rankGE m x
      · simp [insertDesc, h]
      · simp only [insertDesc, if_neg h]
        exact List.Perm.trans (ih.cons x) (List.Perm.swap m x xs)

theorem sortDesc_perm (l : List MatchResult) : List.Perm (sortDesc l) l := by
  induction l with
  | nil => simp [sortDesc]
  | cons x xs ih =>
      exact List.Perm.trans (insertDesc_perm x (sortDesc xs)) (ih.cons x)

theorem mem_of_mem_sortDesc {m : MatchResult} {l : List MatchResult}
    (h : m ∈ sortDesc l) : m ∈ l :=
  (sortDesc_perm l).mem_iff.mp h

/-! ## `pick_single_matches` (bench.py lines 142-187) -/

/-- Loop state of `pick_single_matches`: the accumulated output `ret`, the
remaining `base_cnt`/`comp_cnt` (initialised from `match_matrix.shape`) and
the Python sets `used_base`/`used_comp` of variant string keys. -/
structure SingleState where
  ret : List MatchResult
  base_cnt : Int
  comp_cnt : Int
  used_base : Finset String
  used_comp : Finset String
  deriving DecidableEq

/-- One iteration of the `for match in match_matrix[::-1]` loop of
`pick_single_matches`.  The `break` on `base_cnt == 0 and comp_cnt == 0` is
modelled as the identity step (once both counters are zero no later iteration
changes the state, which is exactly what breaking does). -/
def singleStep (s : SingleState) (m : MatchResult) : SingleState :=
  if s.base_cnt = 0 ∧ s.comp_cnt = 0 then s
  else if s.base_cnt = 0 ∧ vkey m.comp ∉ s.used_comp then
    -- Only write the comp
    { s with ret := s.ret ++ [{ m with base := none, state := false, multi := true }],
             comp_cnt := s.comp_cnt - 1,
             used_comp := insert (vkey m.comp) s.used_comp }
  else if s.comp_cnt = 0 ∧ vkey m.base ∉ s.used_base then
    -- Only write the base
    { s with ret := s.ret ++ [{ m with comp := none, state := false, multi := true }],
             base_cnt := s.base_cnt - 1,
             used_base := insert (vkey m.base) s.used_base }
  else if vkey m.base ∉ s.used_base ∧ vkey m.comp ∉ s.used_comp then
    -- Write both
    { s with ret := s.ret ++ [m],
             base_cnt := s.base_cnt - 1,
             comp_cnt := s.comp_cnt - 1,
             used_base := insert (vkey m.base) s.used_base,
             used_comp := insert (vkey m.comp) s.used_comp }
  else s

/-- Number of rows of the matrix (`match_matrix.shape[0]`). -/
def matRows (matrix : List (List MatchResult)) : Int := matrix.length

/-- Number of columns of the (rectangular) matrix (`match_matrix.shape[1]`). -/
def matCols (matrix : List (List MatchResult)) : Int :=
  ((matrix.head?.map List.length).getD 0 : Nat)

/-- Initial loop state of `pick_single_matches`. -/
def initSingle (matrix : List (List MatchResult)) : SingleState :=
  ⟨[], matRows matrix, matCols matrix, ∅, ∅⟩

/-- `pick_single_matches` (bench.py lines 142-187). -/
def pickSingleMatches (matrix : List (List MatchResult)) : List MatchResult :=
  ((sortDesc matrix.flatten).foldl singleStep (initSingle matrix)).ret

/-- All base-side string keys occurring in the matrix. -/
def bkeysF (matrix : List (List MatchResult)) : Finset String :=
  (matrix.flatten.map (fun m => vkey m.base)).toFinset

/-- All comp-side string keys occurring in the matrix. -/
def ckeysF (matrix : List (List MatchResult)) : Finset String :=
  (matrix.flatten.map (fun m => vkey m.comp)).toFinset

/-- Loop invariant of `pick_single_matches`: each decrement of a remaining
counter coincides with adding one fresh key to the corresponding used set,
and used keys only ever come from the matrix. -/
def SingleInv (matrix : List (List MatchResult)) (s : SingleState) : Prop :=
  (s.used_base.card : Int) + s.base_cnt = matRows matrix ∧
  s.used_base ⊆ bkeysF matrix ∧
  (s.used_comp.card : Int) + s.comp_cnt = matCols matrix ∧
  s.used_comp ⊆ ckeysF matrix

theorem singleInv_init (matrix : List (List MatchResult)) :
    SingleInv matrix (initSingle matrix) := by
  refine ⟨?_, ?_, ?_, ?_⟩ <;> simp [initSingle, SingleInv]

theorem singleStep_inv {matrix : List (List MatchResult)} {s : SingleState}
    {m : MatchResult} (hm : m ∈ matrix.flatten) (h : SingleInv matrix s) :
    SingleInv matrix (singleStep s m) := by
  obtain ⟨i1, i2, i3, i4⟩ := h
  have hbmem : vkey m.base ∈ bkeysF matrix := by
    simp only [bkeysF, List.mem_toFinset, List.mem_map]
    exact ⟨m, hm, rfl⟩
  have hcmem : vkey m.comp ∈ ckeysF matrix := by
    simp only [ckeysF, List.mem_toFinset, List.mem_map]
    exact ⟨m, hm, rfl⟩
  unfold singleStep
  split_ifs with h1 h2 h3 h4
  · exact ⟨i1, i2, i3, i4⟩
  · refine ⟨i1, i2, ?_, ?_⟩
    · simp only [Finset.card_insert_of_not_mem h2.2]
      push_cast
      omega
    · exact Finset.insert_subset_iff.mpr ⟨hcmem, i4⟩
  · refine ⟨?_, ?_, i3, i4⟩
    · simp only [Finset.card_insert_of_not_mem h3.2]
      push_cast
      omega
    · exact Finset.insert_subset_iff.mpr ⟨hbmem, i2⟩
  · refine ⟨?_, ?_, ?_, ?_⟩
    · simp only [Finset.card_insert_of_not_mem h4.1]
      push_cast
      omega
    · exact Finset.insert_subset_iff.mpr ⟨hbmem, i2⟩
    · simp only [Finset.card_insert_of_not_mem h4.2]
      push_cast
      omega
    · exact Finset.insert_subset_iff.mpr ⟨hcmem, i4⟩
  · exact ⟨i1, i2, i3, i4⟩

theorem singleInv_foldl {matrix : List (List MatchResult)} :
    ∀ (l : List MatchResult) (s : SingleState),
    (∀ m ∈ l, m ∈ matrix.flatten) → SingleInv matrix s →
    SingleInv matrix (l.foldl singleStep s) := by
  intro l
  induction l with
  | nil => exact fun s _ h => h
  | cons x xs ih =>
      intro s hl h
      exact ih _ (fun m hm => hl m (List.mem_cons_of_mem x hm))
        (singleStep_inv (hl x (List.mem_cons_self x xs)) h)

/-- With at most `matRows` distinct base keys in the matrix, a zero remaining
base counter means every base key is already used (and symmetrically). -/
theorem base_used_of_cnt_zero {matrix : List (List MatchResult)} {s : SingleState}
    {m : MatchResult}
    (hb : ((bkeysF matrix).card : Int) ≤ matRows matrix)
    (h : SingleInv matrix s) (hm : m ∈ matrix.flatten)
    (hz : s.base_cnt = 0) : vkey m.base ∈ s.used_base := by
  obtain ⟨i1, i2, _, _⟩ := h
  have hcard : (bkeysF matrix).card ≤ s.used_base.card := by omega
  have := Finset.eq_of_subset_of_card_le i2 hcard
  rw [this]
  simp only [bkeysF, List.mem_toFinset, List.mem_map]
  exact ⟨m, hm, rfl⟩

theorem comp_used_of_cnt_zero {matrix : List (List MatchResult)} {s : SingleState}
    {m : MatchResult}
    (hc : ((ckeysF matrix).card : Int) ≤ matCols matrix)
    (h : SingleInv matrix s) (hm : m ∈ matrix.flatten)
    (hz : s.comp_cnt = 0) : vkey m.comp ∈ s.used_comp := by
  obtain ⟨_, _, i3, i4⟩ := h
  have hcard : (ckeysF matrix).card ≤ s.used_comp.card := by omega
  have := Finset.eq_of_subset_of_card_le i4 hcard
  rw [this]
  simp only [ckeysF, List.mem_toFinset, List.mem_map]
  exact ⟨m, hm, rfl⟩

/-- The step behaviour claim C2 (spec §4.6.1) ascribes to the single-best
picker, written from the spec's words: stop when both remaining counters are
zero; if both sides are unused emit the result unchanged and mark both used;
else if only base remains (all comps used) and this result's base is unused,
emit a copy with `comp = null`, `state = false`, `multi = true` and mark the
base used; else symmetric for comp; otherwise skip. -/
def SingleSpecStep (s : SingleState) (m : MatchResult) (s' : SingleState) : Prop :=
  if s.base_cnt = 0 ∧ s.comp_cnt = 0 then s' = s
  else if vkey m.base ∉ s.used_base ∧ vkey m.comp ∉ s.used_comp then
    s' = { s with ret := s.ret ++ [m],
                  base_cnt := s.base_cnt - 1,
                  comp_cnt := s.comp_cnt - 1,
                  used_base := insert (vkey m.base) s.used_base,
                  used_comp := insert (vkey m.comp) s.used_comp }
  else if s.comp_cnt = 0 ∧ vkey m.base ∉ s.used_base then
    s' = { s with ret := s.ret ++ [{ m with comp := none, state := false, multi := true }],
                  base_cnt := s.base_cnt - 1,
                  used_base := insert (vkey m.base) s.used_base }
  else if s.base_cnt = 0 ∧ vkey m.comp ∉ s.used_comp then
    s' = { s with ret := s.ret ++ [{ m with base := none, state := false, multi := true }],
                  comp_cnt := s.comp_cnt - 1,
                  used_comp := insert (vkey m.comp) s.used_comp }
  else s' = s

theorem singleStep_follows_spec {matrix : List (List MatchResult)} {s : SingleState}
    {m : MatchResult}
    (hb : ((bkeysF matrix).card : Int) ≤ matRows matrix)
    (hc : ((ckeysF matrix).card : Int) ≤ matCols matrix)
    (h : SingleInv matrix s) (hm : m ∈ matrix.flatten) :
    SingleSpecStep s m (singleStep s m) := by
  unfold SingleSpecStep singleStep
  by_cases hz : s.base_cnt = 0 ∧ s.comp_cnt = 0
  · simp [hz]
  · by_cases hbu : vkey m.base ∈ s.used_base <;>
      by_cases hcu : vkey m.comp ∈ s.used_comp
    · -- both used: every branch guard fails on both sides
      simp [hz, hbu, hcu]
    · -- base used, comp unused: consolation comp iff base_cnt = 0
      by_cases hb0 : s.base_cnt = 0
      · have hc0 : ¬s.comp_cnt = 0 := fun h0 => hz ⟨hb0, h0⟩
        simp [hz, hbu, hcu, hb0, hc0]
      · simp [hz, hbu, hcu, hb0]
    · -- base unused, comp used: consolation base iff comp_cnt = 0
      have hb0 : ¬s.base_cnt = 0 := fun h0 => hbu (base_used_of_cnt_zero hb h hm h0)
      by_cases hc0 : s.comp_cnt = 0
      · simp [hz, hbu, hcu, hb0, hc0]
      · simp [hz, hbu, hcu, hb0, hc0]
    · -- both unused: both counters are provably nonzero, the pair is emitted
      have hb0 : ¬s.base_cnt = 0 := fun h0 => hbu (base_used_of_cnt_zero hb h hm h0)
      have hc0 : ¬s.comp_cnt = 0 := fun h0 => hcu (comp_used_of_cnt_zero hc h hm h0)
      simp [hz, hbu, hcu, hb0, hc0]

/-- C2: `pick_single_matches` walks the flattened matrix in descending order
of the MatchResult total order, keying used sides by the string
representation of the variant; when both sides are unused it emits the result
unchanged and marks both used; when the remaining comp count is zero (resp.
base count) and this result's base (resp. comp) is unused, it emits a copy
with the other side set to null, `state = false`, `multi = true`, and marks
that side used; it stops once both remaining counts reach zero.  The two
cardinality hypotheses hold for every genuine `base × comp` matrix (each of
the `matRows` rows carries a single base variant, each of the `matCols`
columns a single comp variant). -/
theorem pick_single_matches_follows_spec (matrix : List (List MatchResult))
    (hb : ((bkeysF matrix).card : Int) ≤ matRows matrix)
    (hc : ((ckeysF matrix).card : Int) ≤ matCols matrix) :
    pickSingleMatches matrix =
      ((sortDesc matrix.flatten).foldl singleStep (initSingle matrix)).ret ∧
    ∀ pre m post, sortDesc matrix.flatten = pre ++ m :: post →
      SingleSpecStep (pre.foldl singleStep (initSingle matrix)) m
        ((pre ++ [m]).foldl singleStep (initSingle matrix)) := by
  refine ⟨rfl, ?_⟩
  intro pre m post hsplit
  have hmemPre : ∀ x ∈ pre, x ∈ matrix.flatten := by
    intro x hx
    exact mem_of_mem_sortDesc (hsplit ▸ List.mem_append_left _ hx)
  have hmemM : m ∈ matrix.flatten := by
    refine mem_of_mem_sortDesc (hsplit ▸ List.mem_append_right _ ?_)
    exact List.mem_cons_self m post
  have hinv : SingleInv matrix (pre.foldl singleStep (initSingle matrix)) :=
    singleInv_foldl pre _ hmemPre (singleInv_init matrix)
  have hstep := singleStep_follows_spec hb hc hinv hmemM
  simpa [List.foldl_append] using hstep

/-- A 1×1 example matrix used to witness the picker theorems. -/
def exVb : Variant := ⟨"b0", 100⟩

/-- Example comp variant. -/
def exVc : Variant := ⟨"c0", 100⟩

/-- Example match result pairing `exVb` with `exVc`. -/
def exM0 : MatchResult :=
  { base := some exVb, comp := some exVc, state := true, score := some 300 }

/-- Example 1×1 match matrix. -/
def exMat1 : List (List MatchResult) := [[exM0]]

/-- Witness for C2 at the concrete 1×1 matrix `exMat1`. -/
theorem pick_single_matches_follows_spec_witness :
    SingleSpecStep (List.foldl singleStep (initSingle exMat1) []) exM0
      (List.foldl singleStep (initSingle exMat1) ([] ++ [exM0])) :=
  (pick_single_matches_follows_spec exMat1 (by decide) (by decide)).2
    [] exM0 [] (by decide)

/-! ## `pick_gtcomp_matches` (bench.py lines 80-140) -/

/-- Python `Counter` update `f[k] = v`. -/
def bump (f : String → Int) (k : String) (v : Int) : String → Int :=
  fun x => if x = k then v else f x

/-- Loop state of `pick_gtcomp_matches`: output `ret`, remaining
`base_cnt`/`comp_cnt` and the two `Counter`s (total maps defaulting to 0). -/
structure GtState where
  ret : List MatchResult
  base_cnt : Int
  comp_cnt : Int
  used_base : String → Int
  used_comp : String → Int

/-- One iteration of the `for match in match_matrix[::-1]` loop of
`pick_gtcomp_matches`.  `base_is_used` is `used_base[b_key] >= base_gt_count`
(and symmetrically); the `break` is modelled as the identity step. -/
def gtcompStep (s : GtState) (m : MatchResult) : GtState :=
  if s.base_cnt = 0 ∧ s.comp_cnt = 0 then s
  else if s.base_cnt = 0 ∧ ¬(m.comp_gt_count ≤ s.used_comp (vkey m.comp)) then
    -- Only write the comp (FP); only appended if it has not been a T yet
    { s with ret := if s.used_comp (vkey m.comp) = 0
                    then s.ret ++ [{ m with base := none, state := false, multi := true }]
                    else s.ret,
             comp_cnt := s.comp_cnt - 1,
             used_comp := bump s.used_comp (vkey m.comp) 9 }
  else if s.comp_cnt = 0 ∧ ¬(m.base_gt_count ≤ s.used_base (vkey m.base)) then
    -- Only write the base (FN)
    { s with ret := if s.used_base (vkey m.base) = 0
                    then s.ret ++ [{ m with comp := none, state := false, multi := true }]
                    else s.ret,
             base_cnt := s.base_cnt - 1,
             used_base := bump s.used_base (vkey m.base) 9 }
  else if ¬(m.base_gt_count ≤ s.used_base (vkey m.base)) ∧
          ¬(m.comp_gt_count ≤ s.used_comp (vkey m.comp)) then
    -- Write both (any state); sides already written before are nulled
    let newBase : Option Variant :=
      if s.used_base (vkey m.base) = 0 then m.base else none
    let newComp : Option Variant :=
      if s.used_comp (vkey m.comp) = 0 then m.comp else none
    let nb := s.used_base (vkey m.base) + m.comp_gt_count
    let nc := s.used_comp (vkey m.comp) + m.base_gt_count
    { ret := if newBase.isSome ∨ newComp.isSome
             then s.ret ++ [{ m with base := newBase, comp := newComp }]
             else s.ret,
      base_cnt := if m.base_gt_count ≤ nb then s.base_cnt - 1 else s.base_cnt,
      comp_cnt := if m.comp_gt_count ≤ nc then s.comp_cnt - 1 else s.comp_cnt,
      used_base := bump s.used_base (vkey m.base) nb,
      used_comp := bump s.used_comp (vkey m.comp) nc }
  else s

/-- Initial loop state of `pick_gtcomp_matches`. -/
def initGt (matrix : List (List MatchResult)) : GtState :=
  ⟨[], matRows matrix, matCols matrix, fun _ => 0, fun _ => 0⟩

/-- `pick_gtcomp_matches` (bench.py lines 80-140). -/
def pickGtcompMatches (matrix : List (List MatchResult)) : List MatchResult :=
  ((sortDesc matrix.flatten).foldl gtcompStep (initGt matrix)).ret

/-- The walk of `pick_gtcomp_matches` after a prefix of the sorted flattened
matrix. -/
def gtWalk (matrix : List (List MatchResult)) (l : List MatchResult) : GtState :=
  l.foldl gtcompStep (initGt matrix)

/-- Both gt-count fields of a MatchResult are non-negative and at most the
sentinel 9 (allele counts are 0, 1 or 2). -/
def GtCountsOk (m : MatchResult) : Prop :=
  0 ≤ m.base_gt_count ∧ 0 ≤ m.comp_gt_count ∧ m.base_gt_count ≤ 9 ∧ m.comp_gt_count ≤ 9

instance : DecidablePred GtCountsOk := by
  intro m
  unfold GtCountsOk
  infer_instance

/-- Once a comp key is saturated (counter at the sentinel or beyond), one
step keeps it saturated and can only append records whose comp side does not
carry that key. -/
theorem gtcompStep_sat_comp {s : GtState} {m : MatchResult} {k : String}
    (hcnt : GtCountsOk m) (hk : 9 ≤ s.used_comp k) :
    9 ≤ (gtcompStep s m).used_comp k ∧
    ∃ e, (gtcompStep s m).ret = s.ret ++ e ∧
      ∀ r ∈ e, ∀ v, r.comp = some v → v.srep ≠ k := by
  by_cases h1 : s.base_cnt = 0 ∧ s.comp_cnt = 0
  · simp only [gtcompStep, if_pos h1]
    exact ⟨hk, [], by simp, by simp⟩
  by_cases h2 : s.base_cnt = 0 ∧ ¬(m.comp_gt_count ≤ s.used_comp (vkey m.comp))
  · have hne : vkey m.comp ≠ k := by
      intro he
      rw [he] at h2
      exact h2.2 (le_trans hcnt.2.2.2 hk)
    simp only [gtcompStep, if_neg h1, if_pos h2]
    refine ⟨?_, ?_⟩
    · simpa [bump, Ne.symm hne] using hk
    · by_cases hz : s.used_comp (vkey m.comp) = 0
      · refine ⟨[{ m with base := none, state := false, multi := true }], by simp [hz], ?_⟩
        intro r hr v hv hvk
        rw [List.mem_singleton] at hr
        subst hr
        simp only at hv
        apply hne
        rw [hv]
        exact hvk
      · exact ⟨[], by simp [hz], by simp⟩
  by_cases h3 : s.comp_cnt = 0 ∧ ¬(m.base_gt_count ≤ s.used_base (vkey m.base))
  · simp only [gtcompStep, if_neg h1, if_neg h2, if_pos h3]
    refine ⟨hk, ?_⟩
    by_cases hz : s.used_base (vkey m.base) = 0
    · refine ⟨[{ m with comp := none, state := false, multi := true }], by simp [hz], ?_⟩
      intro r hr v hv
      rw [List.mem_singleton] at hr
      subst hr
      simp at hv
    · exact ⟨[], by simp [hz], by simp⟩
  by_cases h4 : ¬(m.base_gt_count ≤ s.used_base (vkey m.base)) ∧
      ¬(m.comp_gt_count ≤ s.used_comp (vkey m.comp))
  · have hne : vkey m.comp ≠ k := by
      intro he
      rw [he] at h4
      exact h4.2 (le_trans hcnt.2.2.2 hk)
    simp only [gtcompStep, if_neg h1, if_neg h2, if_neg h3, if_pos h4]
    refine ⟨by simpa [bump, Ne.symm hne] using hk, ?_⟩
    by_cases happ : (if s.used_base (vkey m.base) = 0 then m.base else none).isSome ∨
        (if s.used_comp (vkey m.comp) = 0 then m.comp else none).isSome
    · rw [if_pos happ]
      refine ⟨_, rfl, ?_⟩
      intro r hr v hv hvk
      rw [List.mem_singleton] at hr
      subst hr
      simp only at hv
      by_cases hz : s.used_comp (vkey m.comp) = 0
      · rw [if_pos hz] at hv
        apply hne
        rw [hv]
        exact hvk
      · rw [if_neg hz] at hv
        exact Option.noConfusion hv
    · exact ⟨[], by simp [if_neg happ], by simp⟩
  · simp only [gtcompStep, if_neg h1, if_neg h2, if_neg h3, if_neg h4]
    exact ⟨hk, [], by simp, by simp⟩

/-- Mirror of `gtcompStep_sat_comp` for a saturated base key. -/
theorem gtcompStep_sat_base {s : GtState} {m : MatchResult} {k : String}
    (hcnt : GtCountsOk m) (hk : 9 ≤ s.used_base k) :
    9 ≤ (gtcompStep s m).used_base k ∧
    ∃ e, (gtcompStep s m).ret = s.ret ++ e ∧
      ∀ r ∈ e, ∀ v, r.base = some v → v.srep ≠ k := by
  by_cases h1 : s.base_cnt = 0 ∧ s.comp_cnt = 0
  · simp only [gtcompStep, if_pos h1]
    exact ⟨hk, [], by simp, by simp⟩
  by_cases h2 : s.base_cnt = 0 ∧ ¬(m.comp_gt_count ≤ s.used_comp (vkey m.comp))
  · simp only [gtcompStep, if_neg h1, if_pos h2]
    refine ⟨hk, ?_⟩
    by_cases hz : s.used_comp (vkey m.comp) = 0
    · refine ⟨[{ m with base := none, state := false, multi := true }], by simp [hz], ?_⟩
      intro r hr v hv
      rw [List.mem_singleton] at hr
      subst hr
      simp at hv
    · exact ⟨[], by simp [hz], by simp⟩
  by_cases h3 : s.comp_cnt = 0 ∧ ¬(m.base_gt_count ≤ s.used_base (vkey m.base))
  · have hne : vkey m.base ≠ k := by
      intro he
      rw [he] at h3
      exact h3.2 (le_trans hcnt.2.2.1 hk)
    simp only [gtcompStep, if_neg h1, if_neg h2, if_pos h3]
    refine ⟨by simpa [bump, Ne.symm hne] using hk, ?_⟩
    by_cases hz : s.used_base (vkey m.base) = 0
    · refine ⟨[{ m with comp := none, state := false, multi := true }], by simp [hz], ?_⟩
      intro r hr v hv hvk
      rw [List.mem_singleton] at hr
      subst hr
      simp only at hv
      apply hne
      rw [hv]
      exact hvk
    · exact ⟨[], by simp [hz], by simp⟩
  by_cases h4 : ¬(m.base_gt_count ≤ s.used_base (vkey m.base)) ∧
      ¬(m.comp_gt_count ≤ s.used_comp (vkey m.comp))
  · have hne : vkey m.base ≠ k := by
      intro he
      rw [he] at h4
      exact h4.1 (le_trans hcnt.2.2.1 hk)
    simp only [gtcompStep, if_neg h1, if_neg h2, if_neg h3, if_pos h4]
    refine ⟨by simpa [bump, Ne.symm hne] using hk, ?_⟩
    by_cases happ : (if s.used_base (vkey m.base) = 0 then m.base else none).isSome ∨
        (if s.used_comp (vkey m.comp) = 0 then m.comp else none).isSome
    · rw [if_pos happ]
      refine ⟨_, rfl, ?_⟩
      intro r hr v hv hvk
      rw [List.mem_singleton] at hr
      subst hr
      simp only at hv
      by_cases hz : s.used_base (vkey m.base) = 0
      · rw [if_pos hz] at hv
        apply hne
        rw [hv]
        exact hvk
      · rw [if_neg hz] at hv
        exact Option.noConfusion hv
    · exact ⟨[], by simp [if_neg happ], by simp⟩
  · simp only [gtcompStep, if_neg h1, if_neg h2, if_neg h3, if_neg h4]
    exact ⟨hk, [], by simp, by simp⟩

/-- Every record a `gtcompStep` appends has a non-null side, provided the
match the step consumed had both sides populated. -/
theorem gtcompStep_sides {s : GtState} {m : MatchResult}
    (hm : m.base.isSome ∧ m.comp.isSome)
    (hr : ∀ r ∈ s.ret, r.base.isSome ∨ r.comp.isSome) :
    ∀ r ∈ (gtcompStep s m).ret, r.base.isSome ∨ r.comp.isSome := by
  by_cases h1 : s.base_cnt = 0 ∧ s.comp_cnt = 0
  · simpa only [gtcompStep, if_pos h1] using hr
  by_cases h2 : s.base_cnt = 0 ∧ ¬(m.comp_gt_count ≤ s.used_comp (vkey m.comp))
  · simp only [gtcompStep, if_neg h1, if_pos h2]
    by_cases hz : s.used_comp (vkey m.comp) = 0
    · rw [if_pos hz]
      intro r hrr
      rcases List.mem_append.mp hrr with h | h
      · exact hr r h
      · rw [List.mem_singleton] at h
        subst h
        exact Or.inr hm.2
    · rw [if_neg hz]
      exact hr
  by_cases h3 : s.comp_cnt = 0 ∧ ¬(m.base_gt_count ≤ s.used_base (vkey m.base))
  · simp only [gtcompStep, if_neg h1, if_neg h2, if_pos h3]
    by_cases hz : s.used_base (vkey m.base) = 0
    · rw [if_pos hz]
      intro r hrr
      rcases List.mem_append.mp hrr with h | h
      · exact hr r h
      · rw [List.mem_singleton] at h
        subst h
        exact Or.inl hm.1
    · rw [if_neg hz]
      exact hr
  by_cases h4 : ¬(m.base_gt_count ≤ s.used_base (vkey m.base)) ∧
      ¬(m.comp_gt_count ≤ s.used_comp (vkey m.comp))
  · simp only [gtcompStep, if_neg h1, if_neg h2, if_neg h3, if_pos h4]
    by_cases happ : (if s.used_base (vkey m.base) = 0 then m.base else none).isSome ∨
        (if s.used_comp (vkey m.comp) = 0 then m.comp else none).isSome
    · rw [if_pos happ]
      intro r hrr
      rcases List.mem_append.mp hrr with h | h
      · exact hr r h
      · rw [List.mem_singleton] at h
        subst h
        exact happ
    · rw [if_neg happ]
      exact hr
  · simpa only [gtcompStep, if_neg h1, if_neg h2, if_neg h3, if_neg h4] using hr

/-- `gtcompStep_sides`, folded over a whole walk. -/
theorem gtcomp_sides_fold :
    ∀ (l : List MatchResult) (s : GtState),
    (∀ m ∈ l, m.base.isSome ∧ m.comp.isSome) →
    (∀ r ∈ s.ret, r.base.isSome ∨ r.comp.isSome) →
    ∀ r ∈ (l.foldl gtcompStep s).ret, r.base.isSome ∨ r.comp.isSome := by
  intro l
  induction l with
  | nil => exact fun s _ h => h
  | cons x xs ih =>
      intro s hl h
      exact ih _ (fun m hm => hl m (List.mem_cons_of_mem x hm))
        (gtcompStep_sides (hl x (List.mem_cons_self x xs)) h)

/-- `gtcompStep_sat_comp`, folded over the rest of the walk. -/
theorem gtcomp_sat_comp_fold {k : String} :
    ∀ (l : List MatchResult) (s : GtState),
    (∀ m ∈ l, GtCountsOk m) → 9 ≤ s.used_comp k →
    ∃ ex, (l.foldl gtcompStep s).ret = s.ret ++ ex ∧
      ∀ r ∈ ex, ∀ v, r.comp = some v → v.srep ≠ k := by
  intro l
  induction l with
  | nil => exact fun s _ _ => ⟨[], by simp, by simp⟩
  | cons x xs ih =>
      intro s hl hk
      obtain ⟨h9, e, he, hP⟩ := gtcompStep_sat_comp (hl x (List.mem_cons_self x xs)) hk
      obtain ⟨ex, hex, hPex⟩ := ih (gtcompStep s x)
        (fun m hm => hl m (List.mem_cons_of_mem x hm)) h9
      refine ⟨e ++ ex, ?_, ?_⟩
      · simp only [List.foldl_cons, hex, he, List.append_assoc]
      · intro r hr
        rcases List.mem_append.mp hr with h | h
        · exact hP r h
        · exact hPex r h

/-- `gtcompStep_sat_base`, folded over the rest of the walk. -/
theorem gtcomp_sat_base_fold {k : String} :
    ∀ (l : List MatchResult) (s : GtState),
    (∀ m ∈ l, GtCountsOk m) → 9 ≤ s.used_base k →
    ∃ ex, (l.foldl gtcompStep s).ret = s.ret ++ ex ∧
      ∀ r ∈ ex, ∀ v, r.base = some v → v.srep ≠ k := by
  intro l
  induction l with
  | nil => exact fun s _ _ => ⟨[], by simp, by simp⟩
  | cons x xs ih =>
      intro s hl hk
      obtain ⟨h9, e, he, hP⟩ := gtcompStep_sat_base (hl x (List.mem_cons_self x xs)) hk
      obtain ⟨ex, hex, hPex⟩ := ih (gtcompStep s x)
        (fun m hm => hl m (List.mem_cons_of_mem x hm)) h9
      refine ⟨e ++ ex, ?_, ?_⟩
      · simp only [List.foldl_cons, hex, he, List.append_assoc]
      · intro r hr
        rcases List.mem_append.mp hr with h | h
        · exact hP r h
        · exact hPex r h

/-- C5: in `pick_gtcomp_matches`, (a) a side whose first contribution is a
consolation (the opposite side's remaining count is zero) has its used
counter set to the sentinel value 9 and that side never appears in any later
emitted record; (b) when a paired result is emitted, a side that already
contributed to a prior emission is nulled in the emitted copy while its
counter is still advanced by the counterpart's allele-count contribution; and
(c) a result with both sides null is never appended to the output.  The
hypotheses (allele counts in `[0, 9]`, both sides of each matrix entry
populated) hold for every genuine `base × comp` matrix. -/
theorem pick_gtcomp_matches_claim (matrix : List (List MatchResult))
    (hcnt : ∀ x ∈ matrix.flatten, GtCountsOk x)
    (hpop : ∀ x ∈ matrix.flatten, x.base.isSome ∧ x.comp.isSome) :
    -- (c) every output record has a non-null side
    (∀ r ∈ pickGtcompMatches matrix, r.base.isSome ∨ r.comp.isSome) ∧
    -- (a), comp side: a consolation comp saturates its counter to 9 and the
    -- comp key never appears in a record emitted later in the walk
    (∀ pre m post, sortDesc matrix.flatten = pre ++ m :: post →
      (gtWalk matrix pre).base_cnt = 0 →
      (gtWalk matrix pre).comp_cnt ≠ 0 →
      (gtWalk matrix pre).used_comp (vkey m.comp) < m.comp_gt_count →
      (gtcompStep (gtWalk matrix pre) m).used_comp (vkey m.comp) = 9 ∧
      ((gtWalk matrix pre).used_comp (vkey m.comp) = 0 →
        (gtcompStep (gtWalk matrix pre) m).ret = (gtWalk matrix pre).ret ++
          [{ m with base := none, state := false, multi := true }]) ∧
      (∃ later,
        (post.foldl gtcompStep (gtcompStep (gtWalk matrix pre) m)).ret =
          (gtcompStep (gtWalk matrix pre) m).ret ++ later ∧
        ∀ r ∈ later, ∀ v, r.comp = some v → v.srep ≠ vkey m.comp) ∧
      pickGtcompMatches matrix =
        (post.foldl gtcompStep (gtcompStep (gtWalk matrix pre) m)).ret) ∧
    -- (a), base side: symmetric
    (∀ pre m post, sortDesc matrix.flatten = pre ++ m :: post →
      (gtWalk matrix pre).comp_cnt = 0 →
      (gtWalk matrix pre).base_cnt ≠ 0 →
      (gtWalk matrix pre).used_base (vkey m.base) < m.base_gt_count →
      (gtcompStep (gtWalk matrix pre) m).used_base (vkey m.base) = 9 ∧
      ((gtWalk matrix pre).used_base (vkey m.base) = 0 →
        (gtcompStep (gtWalk matrix pre) m).ret = (gtWalk matrix pre).ret ++
          [{ m with comp := none, state := false, multi := true }]) ∧
      (∃ later,
        (post.foldl gtcompStep (gtcompStep (gtWalk matrix pre) m)).ret =
          (gtcompStep (gtWalk matrix pre) m).ret ++ later ∧
        ∀ r ∈ later, ∀ v, r.base = some v → v.srep ≠ vkey m.base) ∧
      pickGtcompMatches matrix =
        (post.foldl gtcompStep (gtcompStep (gtWalk matrix pre) m)).ret) ∧
    -- (b) the paired branch nulls an already-written base side but still
    -- advances its counter by the counterpart's allele-count contribution
    (∀ (s : GtState) (m : MatchResult),
      s.base_cnt ≠ 0 → s.comp_cnt ≠ 0 →
      s.used_base (vkey m.base) < m.base_gt_count →
      s.used_comp (vkey m.comp) < m.comp_gt_count →
      s.used_base (vkey m.base) ≠ 0 →
      s.used_comp (vkey m.comp) = 0 →
      m.comp.isSome →
      (gtcompStep s m).ret = s.ret ++ [{ m with base := none }] ∧
      (gtcompStep s m).used_base (vkey m.base) =
        s.used_base (vkey m.base) + m.comp_gt_count ∧
      (gtcompStep s m).used_comp (vkey m.comp) =
        s.used_comp (vkey m.comp) + m.base_gt_count) ∧
    -- (b), symmetric: the paired branch nulls an already-written comp side,
    -- keeps the base, and still advances both counters
    (∀ (s : GtState) (m : MatchResult),
      s.base_cnt ≠ 0 → s.comp_cnt ≠ 0 →
      s.used_base (vkey m.base) < m.base_gt_count →
      s.used_comp (vkey m.comp) < m.comp_gt_count →
      s.used_base (vkey m.base) = 0 →
      s.used_comp (vkey m.comp) ≠ 0 →
      m.base.isSome →
      (gtcompStep s m).ret = s.ret ++ [{ m with comp := none }] ∧
      (gtcompStep s m).used_base (vkey m.base) =
        s.used_base (vkey m.base) + m.comp_gt_count ∧
      (gtcompStep s m).used_comp (vkey m.comp) =
        s.used_comp (vkey m.comp) + m.base_gt_count) := by
  refine ⟨?_, ?_, ?_, ?_, ?_⟩
  · -- (c)
    intro r hr
    refine gtcomp_sides_fold (sortDesc matrix.flatten) (initGt matrix) ?_ ?_ r hr
    · exact fun m hm => hpop m (mem_of_mem_sortDesc hm)
    · intro r0 hr0
      simp [initGt] at hr0
  · -- (a) comp side
    intro pre m post hsplit hb0 hc0 hlt
    have h1 : ¬((gtWalk matrix pre).base_cnt = 0 ∧ (gtWalk matrix pre).comp_cnt = 0) :=
      fun h => hc0 h.2
    have h2 : (gtWalk matrix pre).base_cnt = 0 ∧
        ¬(m.comp_gt_count ≤ (gtWalk matrix pre).used_comp (vkey m.comp)) :=
      ⟨hb0, not_le.mpr hlt⟩
    have hstep :
        gtcompStep (gtWalk matrix pre) m =
        { gtWalk matrix pre with
            ret := if (gtWalk matrix pre).used_comp (vkey m.comp) = 0
                   then (gtWalk matrix pre).ret ++
                     [{ m with base := none, state := false, multi := true }]
                   else (gtWalk matrix pre).ret,
            comp_cnt := (gtWalk matrix pre).comp_cnt - 1,
            used_comp := bump (gtWalk matrix pre).used_comp (vkey m.comp) 9 } := by
      simp only [gtcompStep, if_neg h1, if_pos h2]
    refine ⟨?_, ?_, ?_, ?_⟩
    · rw [hstep]
      simp [bump]
    · intro hz
      rw [hstep]
      simp [hz]
    · refine gtcomp_sat_comp_fold post _ ?_ ?_
      · intro x hx
        refine hcnt x (mem_of_mem_sortDesc ?_)
        rw [hsplit]
        exact List.mem_append_right _ (List.mem_cons_of_mem m hx)
      · rw [hstep]
        simp [bump]
    · show ((sortDesc matrix.flatten).foldl gtcompStep (initGt matrix)).ret = _
      rw [hsplit, List.foldl_append, List.foldl_cons]
      rfl
  · -- (a) base side
    intro pre m post hsplit hc0 hb0 hlt
    have h1 : ¬((gtWalk matrix pre).base_cnt = 0 ∧ (gtWalk matrix pre).comp_cnt = 0) :=
      fun h => hb0 h.1
    have h2 : ¬((gtWalk matrix pre).base_cnt = 0 ∧
        ¬(m.comp_gt_count ≤ (gtWalk matrix pre).used_comp (vkey m.comp))) :=
      fun h => hb0 h.1
    have h3 : (gtWalk matrix pre).comp_cnt = 0 ∧
        ¬(m.base_gt_count ≤ (gtWalk matrix pre).used_base (vkey m.base)) :=
      ⟨hc0, not_le.mpr hlt⟩
    have hstep :
        gtcompStep (gtWalk matrix pre) m =
        { gtWalk matrix pre with
            ret := if (gtWalk matrix pre).used_base (vkey m.base) = 0
                   then (gtWalk matrix pre).ret ++
                     [{ m with comp := none, state := false, multi := true }]
                   else (gtWalk matrix pre).ret,
            base_cnt := (gtWalk matrix pre).base_cnt - 1,
            used_base := bump (gtWalk matrix pre).used_base (vkey m.base) 9 } := by
      simp only [gtcompStep, if_neg h1, if_neg h2, if_pos h3]
    refine ⟨?_, ?_, ?_, ?_⟩
    · rw [hstep]
      simp [bump]
    · intro hz
      rw [hstep]
      simp [hz]
    · refine gtcomp_sat_base_fold post _ ?_ ?_
      · intro x hx
        refine hcnt x (mem_of_mem_sortDesc ?_)
        rw [hsplit]
        exact List.mem_append_right _ (List.mem_cons_of_mem m hx)
      · rw [hstep]
        simp [bump]
    · show ((sortDesc matrix.flatten).foldl gtcompStep (initGt matrix)).ret = _
      rw [hsplit, List.foldl_append, List.foldl_cons]
      rfl
  · -- (b)
    intro s m hb0 hc0 hbl hcl hbnz hcz hcs
    have h1 : ¬(s.base_cnt = 0 ∧ s.comp_cnt = 0) := fun h => hb0 h.1
    have h2 : ¬(s.base_cnt = 0 ∧ ¬(m.comp_gt_count ≤ s.used_comp (vkey m.comp))) :=
      fun h => hb0 h.1
    have h3 : ¬(s.comp_cnt = 0 ∧ ¬(m.base_gt_count ≤ s.used_base (vkey m.base))) :=
      fun h => hc0 h.1
    have h4 : ¬(m.base_gt_count ≤ s.used_base (vkey m.base)) ∧
        ¬(m.comp_gt_count ≤ s.used_comp (vkey m.comp)) :=
      ⟨not_le.mpr hbl, not_le.mpr hcl⟩
    have happ : ((if s.used_base (vkey m.base) = 0 then m.base else none).isSome ∨
        (if s.used_comp (vkey m.comp) = 0 then m.comp else none).isSome) := by
      rw [if_pos hcz]
      exact Or.inr hcs
    simp only [gtcompStep, if_neg h1, if_neg h2, if_neg h3, if_pos h4]
    rw [if_pos happ, if_neg hbnz, if_pos hcz]
    refine ⟨rfl, ?_, ?_⟩ <;> simp [bump]
  · -- (b), comp side
    intro s m hb0 hc0 hbl hcl hbz hcnz hbs
    have h1 : ¬(s.base_cnt = 0 ∧ s.comp_cnt = 0) := fun h => hb0 h.1
    have h2 : ¬(s.base_cnt = 0 ∧ ¬(m.comp_gt_count ≤ s.used_comp (vkey m.comp))) :=
      fun h => hb0 h.1
    have h3 : ¬(s.comp_cnt = 0 ∧ ¬(m.base_gt_count ≤ s.used_base (vkey m.base))) :=
      fun h => hc0 h.1
    have h4 : ¬(m.base_gt_count ≤ s.used_base (vkey m.base)) ∧
        ¬(m.comp_gt_count ≤ s.used_comp (vkey m.comp)) :=
      ⟨not_le.mpr hbl, not_le.mpr hcl⟩
    have happ : ((if s.used_base (vkey m.base) = 0 then m.base else none).isSome ∨
        (if s.used_comp (vkey m.comp) = 0 then m.comp else none).isSome) := by
      rw [if_pos hbz]
      exact Or.inl hbs
    simp only [gtcompStep, if_neg h1, if_neg h2, if_neg h3, if_pos h4]
    rw [if_pos happ, if_pos hbz, if_neg hcnz]
    refine ⟨rfl, ?_, ?_⟩ <;> simp [bump]

/-- Example MatchResult with nontrivial genotype allele counts. -/
def exGtM : MatchResult :=
  { base := some exVb, comp := some exVc, base_gt_count := 2, comp_gt_count := 1 }

/-- Example gtcomp picker state in which `exGtM`'s base already contributed. -/
def exGtS : GtState :=
  ⟨[], 1, 1, fun k => if k = "b0" then 1 else 0, fun _ => 0⟩

/-- Example MatchResult for the symmetric comp-side case. -/
def exGtM2 : MatchResult :=
  { base := some exVb, comp := some exVc, base_gt_count := 1, comp_gt_count := 2 }

/-- Example gtcomp picker state in which `exGtM2`'s comp already contributed. -/
def exGtS2 : GtState :=
  ⟨[], 1, 1, fun _ => 0, fun k => if k = "c0" then 1 else 0⟩

/-- Witness for C5, part (b), at concrete states and matches: an
already-written base is nulled, and symmetrically an already-written comp. -/
theorem pick_gtcomp_matches_claim_witness :
    ((gtcompStep exGtS exGtM).ret = exGtS.ret ++ [{ exGtM with base := none }] ∧
     (gtcompStep exGtS exGtM).used_base (vkey exGtM.base) =
       exGtS.used_base (vkey exGtM.base) + exGtM.comp_gt_count ∧
     (gtcompStep exGtS exGtM).used_comp (vkey exGtM.comp) =
       exGtS.used_comp (vkey exGtM.comp) + exGtM.base_gt_count) ∧
    ((gtcompStep exGtS2 exGtM2).ret = exGtS2.ret ++ [{ exGtM2 with comp := none }] ∧
     (gtcompStep exGtS2 exGtM2).used_base (vkey exGtM2.base) =
       exGtS2.used_base (vkey exGtM2.base) + exGtM2.comp_gt_count ∧
     (gtcompStep exGtS2 exGtM2).used_comp (vkey exGtM2.comp) =
       exGtS2.used_comp (vkey exGtM2.comp) + exGtM2.base_gt_count) :=
  ⟨(pick_gtcomp_matches_claim exMat1 (by decide) (by decide)).2.2.2.1 exGtS exGtM
    (by decide) (by decide) (by decide) (by decide) (by decide) (by decide) (by decide),
   (pick_gtcomp_matches_claim exMat1 (by decide) (by decide)).2.2.2.2 exGtS2 exGtM2
    (by decide) (by decide) (by decide) (by decide) (by decide) (by decide) (by decide)⟩

/-! ## `StatsBox` and `BenchOutput.write_match` (bench.py lines 20-41, 440-479) -/

/-- `gt_matrix[gtBase][gtComp] += 1` on a `defaultdict(Counter)`. -/
def bump2 (f : String → String → Nat) (a b : String) : String → String → Nat :=
  fun x y => if x = a ∧ y = b then f x y + 1 else f x y

/-- The StatsBox counters (bench.py lines 20-41).  The derived rates filled
in by `calc_performance` (precision, recall, f1, gt_concordance) are not
modelled; `gt_matrix` is the genotype-string confusion table. -/
structure StatsBox where
  tp_base : Nat
  tp_comp : Nat
  fp : Nat
  fn : Nat
  base_cnt : Nat
  comp_cnt : Nat
  tp_comp_tp_gt : Nat
  tp_comp_fp_gt : Nat
  tp_base_tp_gt : Nat
  tp_base_fp_gt : Nat
  gt_matrix : String → String → Nat

/-- A fresh `StatsBox()`: all counters zero. -/
def initStatsBox : StatsBox := ⟨0, 0, 0, 0, 0, 0, 0, 0, 0, 0, fun _ _ => 0⟩

/-- The four output VCF files of a `BenchOutput`, as lists of the records
written so far. -/
structure OutVcfs where
  tpb_out : List Variant
  tpc_out : List Variant
  fn_out : List Variant
  fp_out : List Variant
  deriving DecidableEq

/-- Freshly opened (empty) output files. -/
def initOutVcfs : OutVcfs := ⟨[], [], [], []⟩

/-- `BenchOutput.write_match` (bench.py lines 440-479): sequentially handles
the base side, then the comp side, of one MatchResult, updating the stats box
and appending the record to the appropriate output file.  The in-place
`annotate_entry` calls only fill INFO fields and are modelled separately by
`annotateEntry`. -/
def writeMatch (box : StatsBox) (o : OutVcfs) (m : MatchResult) (sizemin : Int) :
    StatsBox × OutVcfs :=
  let afterBase : StatsBox × OutVcfs :=
    match m.base with
    | none => (box, o)
    | some b =>
      let box := { box with base_cnt := box.base_cnt + 1 }
      if m.state then
        ({ box with
             gt_matrix := bump2 box.gt_matrix m.base_gt m.comp_gt,
             tp_base := box.tp_base + 1,
             tp_base_tp_gt := if m.gt_match = some 0
                              then box.tp_base_tp_gt + 1 else box.tp_base_tp_gt,
             tp_base_fp_gt := if m.gt_match = some 0
                              then box.tp_base_fp_gt else box.tp_base_fp_gt + 1 },
         { o with tpb_out := o.tpb_out ++ [b] })
      else
        ({ box with fn := box.fn + 1 }, { o with fn_out := o.fn_out ++ [b] })
  let box := afterBase.1
  let o := afterBase.2
  match m.comp with
  | none => (box, o)
  | some c =>
    if m.state then
      ({ box with
           comp_cnt := box.comp_cnt + 1,
           tp_comp := box.tp_comp + 1,
           tp_comp_tp_gt := if m.gt_match = some 0
                            then box.tp_comp_tp_gt + 1 else box.tp_comp_tp_gt,
           tp_comp_fp_gt := if m.gt_match = some 0
                            then box.tp_comp_fp_gt else box.tp_comp_fp_gt + 1 },
       { o with tpc_out := o.tpc_out ++ [c] })
    else if sizemin ≤ c.size then
      -- we don't count FPs between sizefilt-sizemin
      ({ box with comp_cnt := box.comp_cnt + 1, fp := box.fp + 1 },
       { o with fp_out := o.fp_out ++ [c] })
    else (box, o)

/-- The condition under which `write_match` increments `comp cnt` (and, in
the same two branches, `TP-comp` or `FP`): a comp side is present and either
the match passed, or the comp variant clears `sizemin`. -/
def compCntInc (m : MatchResult) (sizemin : Int) : Nat :=
  match m.comp with
  | none => 0
  | some c => if m.state then 1 else if sizemin ≤ c.size then 1 else 0

/-- The condition under which `write_match` increments `base cnt`: a base
side is present. -/
def baseCntInc (m : MatchResult) : Nat :=
  if m.base.isSome then 1 else 0

/-- Exact counter deltas of one `write_match` call. -/
theorem writeMatch_deltas (box : StatsBox) (o : OutVcfs) (m : MatchResult)
    (sz : Int) :
    (writeMatch box o m sz).1.base_cnt = box.base_cnt + baseCntInc m ∧
    (writeMatch box o m sz).1.tp_base + (writeMatch box o m sz).1.fn
      = box.tp_base + box.fn + baseCntInc m ∧
    (writeMatch box o m sz).1.comp_cnt = box.comp_cnt + compCntInc m sz ∧
    (writeMatch box o m sz).1.tp_comp + (writeMatch box o m sz).1.fp
      = box.tp_comp + box.fp + compCntInc m sz := by
  rcases hb : m.base with _ | b <;> rcases hc : m.comp with _ | c <;>
    rcases hs : m.state
  all_goals try (by_cases hsz : sz ≤ c.size)
  all_goals try simp [writeMatch, compCntInc, baseCntInc, hb, hc, hs]
  all_goals try simp [hsz]
  all_goals omega

/-- One run of the bench writer: fold `write_match` over the emitted
MatchResults starting from a fresh stats box and empty output files. -/
def runWriteMatches (ms : List MatchResult) (sizemin : Int) : StatsBox × OutVcfs :=
  ms.foldl (fun p x => writeMatch p.1 p.2 x sizemin) (initStatsBox, initOutVcfs)

/-- C1: `write_match` increments `base cnt` exactly when a base side is
present and then increments exactly one of `TP-base` or `FN`, and increments
`comp cnt` exactly in the two branches that also increment `TP-comp` or `FP`;
hence after every call (and over any whole run from a fresh stats box)
`TP-base + FN = base cnt` and `TP-comp + FP = comp cnt`. -/
theorem write_match_stats_invariant (box : StatsBox) (o : OutVcfs)
    (m : MatchResult) (sz : Int) :
    (writeMatch box o m sz).1.base_cnt = box.base_cnt + baseCntInc m ∧
    (writeMatch box o m sz).1.tp_base + (writeMatch box o m sz).1.fn
      = box.tp_base + box.fn + baseCntInc m ∧
    (writeMatch box o m sz).1.comp_cnt = box.comp_cnt + compCntInc m sz ∧
    (writeMatch box o m sz).1.tp_comp + (writeMatch box o m sz).1.fp
      = box.tp_comp + box.fp + compCntInc m sz ∧
    (box.tp_base + box.fn = box.base_cnt →
     box.tp_comp + box.fp = box.comp_cnt →
     (writeMatch box o m sz).1.tp_base + (writeMatch box o m sz).1.fn
        = (writeMatch box o m sz).1.base_cnt ∧
     (writeMatch box o m sz).1.tp_comp + (writeMatch box o m sz).1.fp
        = (writeMatch box o m sz).1.comp_cnt) ∧
    (∀ (ms : List MatchResult) (sz2 : Int),
      (runWriteMatches ms sz2).1.tp_base + (runWriteMatches ms sz2).1.fn
        = (runWriteMatches ms sz2).1.base_cnt ∧
      (runWriteMatches ms sz2).1.tp_comp + (runWriteMatches ms sz2).1.fp
        = (runWriteMatches ms sz2).1.comp_cnt) := by
  obtain ⟨d1, d2, d3, d4⟩ := writeMatch_deltas box o m sz
  refine ⟨d1, d2, d3, d4, ?_, ?_⟩
  · intro i1 i2
    exact ⟨by omega, by omega⟩
  · intro ms sz2
    have main : ∀ (l : List MatchResult) (p : StatsBox × OutVcfs),
        p.1.tp_base + p.1.fn = p.1.base_cnt →
        p.1.tp_comp + p.1.fp = p.1.comp_cnt →
        (l.foldl (fun q x => writeMatch q.1 q.2 x sz2) p).1.tp_base
            + (l.foldl (fun q x => writeMatch q.1 q.2 x sz2) p).1.fn
          = (l.foldl (fun q x => writeMatch q.1 q.2 x sz2) p).1.base_cnt ∧
        (l.foldl (fun q x => writeMatch q.1 q.2 x sz2) p).1.tp_comp
            + (l.foldl (fun q x => writeMatch q.1 q.2 x sz2) p).1.fp
          = (l.foldl (fun q x => writeMatch q.1 q.2 x sz2) p).1.comp_cnt := by
      intro l
      induction l with
      | nil => exact fun p h1 h2 => ⟨h1, h2⟩
      | cons x xs ih =>
          intro p h1 h2
          obtain ⟨e1, e2, e3, e4⟩ := writeMatch_deltas p.1 p.2 x sz2
          exact ih (writeMatch p.1 p.2 x sz2) (by omega) (by omega)
    exact main ms (initStatsBox, initOutVcfs) rfl rfl

/-- Witness for C1: the invariants after one concrete `write_match` call. -/
theorem write_match_stats_invariant_witness :
    (writeMatch initStatsBox initOutVcfs exM0 50).1.tp_base
        + (writeMatch initStatsBox initOutVcfs exM0 50).1.fn
      = (writeMatch initStatsBox initOutVcfs exM0 50).1.base_cnt ∧
    (writeMatch initStatsBox initOutVcfs exM0 50).1.tp_comp
        + (writeMatch initStatsBox initOutVcfs exM0 50).1.fp
      = (writeMatch initStatsBox initOutVcfs exM0 50).1.comp_cnt :=
  (write_match_stats_invariant initStatsBox initOutVcfs exM0 50).2.2.2.2.1 rfl rfl

/-- C6: a MatchResult whose comp side is present, whose state is false and
whose comp variant size is below `sizemin` leaves the `FP` counter and the
`comp cnt` counter unchanged and writes nothing to the fp output file. -/
theorem write_match_skips_small_fp (box : StatsBox) (o : OutVcfs)
    (m : MatchResult) (sz : Int) (c : Variant)
    (hc : m.comp = some c) (hs : m.state = false) (hsz : c.size < sz) :
    (writeMatch box o m sz).1.fp = box.fp ∧
    (writeMatch box o m sz).1.comp_cnt = box.comp_cnt ∧
    (writeMatch box o m sz).2.fp_out = o.fp_out := by
  have hnot : ¬(sz ≤ c.size) := not_le.mpr hsz
  rcases hb : m.base with _ | b <;>
    simp [writeMatch, hb, hc, hs, hnot]

/-- Example comp variant below the size floor. -/
def exSmallC : Variant := ⟨"cS", 10⟩

/-- Example unmatched MatchResult carrying only a small comp variant. -/
def exSmallM : MatchResult := { comp := some exSmallC }

/-- Witness for C6 at a concrete small comp-only MatchResult. -/
theorem write_match_skips_small_fp_witness :
    (writeMatch initStatsBox initOutVcfs exSmallM 50).1.fp = initStatsBox.fp ∧
    (writeMatch initStatsBox initOutVcfs exSmallM 50).1.comp_cnt
      = initStatsBox.comp_cnt ∧
    (writeMatch initStatsBox initOutVcfs exSmallM 50).2.fp_out
      = initOutVcfs.fp_out :=
  write_match_skips_small_fp initStatsBox initOutVcfs exSmallM 50 exSmallC
    rfl rfl (by decide)

/-! ## `Bench.build_matrix` (bench.py lines 554-593) -/

/-- `Bench.build_matrix`: all-FP flat list when there are no base variants,
all-FN flat list when there are no comp variants, otherwise the dense
`B × C` matrix of `matcher.build_match` results.  `matcher.build_match` is a
collaborator outside the two source files and is passed in as `bm`. -/
def buildMatrix (bm : Variant → Variant → String → MatchResult)
    (base_variants comp_variants : List Variant) (chunk_id : Nat) :
    List MatchResult ⊕ List (List MatchResult) :=
  if base_variants = [] then
    Sum.inl (comp_variants.enum.map fun p =>
      { comp := some p.2, matid := toString chunk_id ++ "._." ++ toString p.1 })
  else if comp_variants = [] then
    Sum.inl (base_variants.enum.map fun p =>
      { base := some p.2, matid := toString chunk_id ++ "." ++ toString p.1 ++ "._" })
  else
    Sum.inr (base_variants.enum.map fun bp =>
      comp_variants.enum.map fun cp =>
        bm bp.2 cp.2
          (toString chunk_id ++ "." ++ toString bp.1 ++ "." ++ toString cp.1))

/-- Claim C4's description of `build_matrix` (spec §4.5), written from the
spec's words: indexing by position, `B = 0` gives `C` comp-only MatchResults
with matid `"{id}._.{ci}"` and a false state, `C = 0` gives `B` base-only
MatchResults with matid `"{id}.{bi}._"`, and otherwise one MatchResult per
`(base, comp)` pair with matid `"{id}.{bi}.{ci}"`. -/
def buildMatrixSpec (bm : Variant → Variant → String → MatchResult)
    (base_variants comp_variants : List Variant) (chunk_id : Nat) :
    List MatchResult ⊕ List (List MatchResult) :=
  if base_variants.length = 0 then
    Sum.inl ((List.range comp_variants.length).map fun ci =>
      { comp := comp_variants[ci]?, state := false,
        matid := toString chunk_id ++ "._." ++ toString ci })
  else if comp_variants.length = 0 then
    Sum.inl ((List.range base_variants.length).map fun bi =>
      { base := base_variants[bi]?, state := false,
        matid := toString chunk_id ++ "." ++ toString bi ++ "._" })
  else
    Sum.inr ((List.range base_variants.length).map fun bi =>
      (List.range comp_variants.length).map fun ci =>
        bm (base_variants.getD bi ⟨"", 0⟩) (comp_variants.getD ci ⟨"", 0⟩)
          (toString chunk_id ++ "." ++ toString bi ++ "." ++ toString ci))

/-- C4: `Bench.build_matrix` returns, for `B = 0`, the flat list of `C`
comp-only MatchResults with matid `"{id}._.{ci}"` and false state; for
`C = 0`, the flat list of `B` base-only MatchResults with matid
`"{id}.{bi}._"`; and otherwise the `B × C` rectangular array with one
`build_match` result per pair, with matid `"{id}.{bi}.{ci}"`. -/
theorem build_matrix_matches_spec (bm : Variant → Variant → String → MatchResult)
    (base_variants comp_variants : List Variant) (chunk_id : Nat) :
    buildMatrix bm base_variants comp_variants chunk_id =
      buildMatrixSpec bm base_variants comp_variants chunk_id := by
  unfold buildMatrix buildMatrixSpec
  by_cases hb : base_variants = []
  · have hb' : base_variants.length = 0 := by simp [hb]
    rw [if_pos hb, if_pos hb']
    refine congrArg Sum.inl (List.ext_getElem (by simp) ?_)
    intro i h1 h2
    have hi : i < comp_variants.length := by simpa using h1
    simp [List.getElem_enum, List.getElem_range, List.getElem?_eq_getElem hi]
  · have hb' : ¬base_variants.length = 0 := by simpa using hb
    rw [if_neg hb, if_neg hb']
    by_cases hc : comp_variants = []
    · have hc' : comp_variants.length = 0 := by simp [hc]
      rw [if_pos hc, if_pos hc']
      refine congrArg Sum.inl (List.ext_getElem (by simp) ?_)
      intro i h1 h2
      have hi : i < base_variants.length := by simpa using h1
      simp [List.getElem_enum, List.getElem_range, List.getElem?_eq_getElem hi]
    · have hc' : ¬comp_variants.length = 0 := by simpa using hc
      rw [if_neg hc, if_neg hc']
      refine congrArg Sum.inr (List.ext_getElem (by simp) ?_)
      intro i h1 h2
      have hi : i < base_variants.length := by simpa using h1
      refine List.ext_getElem (by simp) ?_
      intro j h3 h4
      have hj : j < comp_variants.length := by simpa using h3
      simp [List.getElem_enum, List.getElem_range,
        List.getElem?_eq_getElem hi, List.getElem?_eq_getElem hj,
        List.getD_eq_getElem _ _ hi, List.getD_eq_getElem _ _ hj]

/-! ## `parse_args` sizefilt resolution (bench.py lines 307-315) -/

/-- The `--sizefilt` post-processing of `parse_args`: when `-S` was not
given (`sizefilt is None`), use `sizemin` if it was lowered below the default
sizefilt, else the default; a provided value is kept unchanged.  The default
(`defaults.sizefilt`, 30) comes from `truvari.Matcher.make_match_params`
outside the two source files and is passed in. -/
def resolveSizefilt (sizefilt : Option Int) (sizemin default_sizefilt : Int) : Int :=
  match sizefilt with
  | none => if sizemin < default_sizefilt then sizemin else default_sizefilt
  | some v => v

/-- C10: with `--sizefilt` omitted, `parse_args` sets sizefilt to `sizemin`
when `sizemin` is smaller than the default sizefilt and to the default
otherwise; a provided `-S` value is kept unchanged. -/
theorem parse_args_sizefilt (sizemin dft v : Int) :
    (sizemin < dft → resolveSizefilt none sizemin dft = sizemin) ∧
    (dft ≤ sizemin → resolveSizefilt none sizemin dft = dft) ∧
    resolveSizefilt (some v) sizemin dft = v := by
  refine ⟨fun h => ?_, fun h => ?_, rfl⟩
  · simp [resolveSizefilt, h]
  · simp [resolveSizefilt, not_lt.mpr h]

/-- Witness for C10 at `sizemin = 1` against the default 30, and `-S 7`. -/
theorem parse_args_sizefilt_witness :
    resolveSizefilt none 1 30 = 1 ∧ resolveSizefilt (some 7) 1 30 = 7 :=
  ⟨(parse_args_sizefilt 1 30 7).1 (by decide), (parse_args_sizefilt 1 30 7).2.2⟩

/-! ## `annotate_entry` (bench.py lines 220-234) -/

/-- Python `int()` truncation toward zero on a rational. -/
def pyTrunc (q : Rat) : Int := if 0 ≤ q then q.floor else q.ceil

/-- The INFO fields `annotate_entry` writes onto a VCF record. -/
structure EntryInfo where
  pct_seq_sim : Option Rat
  pct_size_sim : Option Rat
  pct_rec_ovl : Option Rat
  size_diff : Option Rat
  start_dist : Option Int
  end_dist : Option Int
  gt_match_info : Option Int
  tru_score : Option Int
  match_id : String
  multi_flag : Bool
  deriving Repr, DecidableEq

/-- `annotate_entry` (bench.py lines 220-234): similarity percentages are
rounded to 4 decimals when present (Python `round`, an external builtin, is
passed in as `round4`); `TruScore` is `int(match.score) if match.score else
None` — the Python truthiness test, false for both `None` and `0`. -/
def annotateEntry (round4 : Rat → Rat) (m : MatchResult) : EntryInfo :=
  { pct_seq_sim := m.seqsim.map round4,
    pct_size_sim := m.sizesim.map round4,
    pct_rec_ovl := m.ovlpct.map round4,
    size_diff := m.sizediff,
    start_dist := m.st_dist,
    end_dist := m.ed_dist,
    gt_match_info := m.gt_match,
    tru_score := match m.score with
                 | none => none
                 | some s => if s = 0 then none else some (pyTrunc s),
    match_id := m.matid,
    multi_flag := m.multi }

/-- C8: `annotate_entry` sets the TruScore INFO field to None exactly when
`match.score` is None or equals 0 (the truthiness test `if match.score`), so
a composite score of exactly 0 receives no TruScore value rather than the
integer 0; any other score is truncated to an integer. -/
theorem annotate_entry_truscore (round4 : Rat → Rat) (m : MatchResult) :
    ((annotateEntry round4 m).tru_score = none ↔
      m.score = none ∨ m.score = some 0) ∧
    (∀ s, m.score = some s → s ≠ 0 →
      (annotateEntry round4 m).tru_score = some (pyTrunc s)) := by
  constructor
  · rcases hs : m.score with _ | s
    · simp [annotateEntry, hs]
    · by_cases h0 : s = 0 <;> simp [annotateEntry, hs, h0]
  · intro s hs h0
    simp [annotateEntry, hs, h0]

/-- Witness for C8: a zero score yields no TruScore, a 300 score is kept. -/
theorem annotate_entry_truscore_witness :
    ((annotateEntry id { exM0 with score := some 0 }).tru_score = none) ∧
    (annotateEntry id exM0).tru_score = some (pyTrunc 300) :=
  ⟨(annotate_entry_truscore id { exM0 with score := some 0 }).1.mpr
      (Or.inr rfl),
   (annotate_entry_truscore id exM0).2 300 rfl (by decide)⟩

/-! ## TRF annotator (`truvari/annotations/trf.py`) -/

/-- A known TR motif record (one element of a region's `annos`).  `mstart`
and `mend` are the Python keys `start`/`end`; `repseq` is the key `repeat`. -/
structure TrfMotif where
  mstart : Int
  mend : Int
  period : Int
  copies : Rat
  score : Int
  entropy : Rat
  repseq : String
  deriving Repr, DecidableEq

/-- A motif with the derived fields `ovl_pct` and `diff` added in place by
the scoring code. -/
structure ScoredMotif extends TrfMotif where
  ovl_pct : Rat
  diff : Rat
  deriving Repr, DecidableEq

/-- A TR reference region with its known motif records. -/
structure TrRegion where
  chrom : String
  rstart : Int
  rend : Int
  annos : List TrfMotif
  deriving Repr, DecidableEq

/-- Modelled from the spec: `truvari.overlap_percent` is a collaborator
outside the two source files; spec §4.8 specifies
`ovl_pct = reciprocal_overlap(variant, motif)` with the §4.1 formula
`max(0, min(end) - max(start)) / max(span_a, span_b)` (the spec's worked
example: DEL [120,160) against motif [100,200) gives 40/100 = 0.4). -/
def reciprocalOvl (astart aend bstart bend : Int) : Rat :=
  ((max 0 (min aend bend - max astart bstart) : Int) : Rat) /
    ((max (aend - astart) (bend - bstart) : Int) : Rat)

/-- `compare_scores` (trf.py lines 85-107) as written in the source: the
comparison value together with the second argument as the call leaves it.
Line 101 reads `bspan = b['end'] = b['start']`, a chained assignment: it
overwrites `b['end']` with `b['start']` and compares `aspan` against
`b['start']` instead of against `b['end'] - b['start']`. -/
def compareScoresCode (a b : ScoredMotif) : Int × ScoredMotif :=
  if a.ovl_pct > b.ovl_pct then (1, b)
  else if a.ovl_pct < b.ovl_pct then (-1, b)
  else if a.score > b.score then (1, b)
  else if a.score < b.score then (-1, b)
  else
    let aspan := a.mend - a.mstart
    let b' := { b with mend := b.mstart }
    let bspan := b.mstart
    if aspan > bspan then (1, b')
    else if aspan < bspan then (-1, b')
    else (0, b')

/-- `compare_scores` as the spec intends it (§4.8 and §9: the third
tie-break compares the motif spans `end - start`, descending). -/
def compareScoresSpec (a b : ScoredMotif) : Int :=
  if a.ovl_pct > b.ovl_pct then 1
  else if a.ovl_pct < b.ovl_pct then -1
  else if a.score > b.score then 1
  else if a.score < b.score then -1
  else
    let aspan := a.mend - a.mstart
    let bspan := b.mend - b.mstart
    if aspan > bspan then 1
    else if aspan < bspan then -1
    else 0

/-- `scores.sort(reverse=True, key=cmp_to_key(cmp))` followed by `scores[0]`:
the first element that no later element strictly beats (a stable descending
sort keeps the earliest of equally-ranked elements in front).  The source
comparator also mutates its second argument's `end` field; that mutation can
only influence the selection when three or more candidates tie on both
`ovl_pct` and `score`, which does not occur in the evaluations below. -/
def pickTop (cmp : ScoredMotif → ScoredMotif → Int) :
    List ScoredMotif → Option ScoredMotif
  | [] => none
  | x :: xs => some (xs.foldl (fun best y => if cmp y best > 0 then y else best) x)

/-- `TRFAnno.del_annotator` (trf.py lines 241-259): score every known motif
with nonzero overlap against the variant interval, set
`diff = -(ovl_pct * svlen) / period`, rank with `compare_scores` descending
and return the top candidate (None when no motif overlaps). -/
def delAnnotator (region : TrRegion) (var_start var_end svlen : Int) :
    Option ScoredMotif :=
  let scores := region.annos.filterMap fun anno =>
    let ovl := reciprocalOvl var_start var_end anno.mstart anno.mend
    if ovl = 0 then none
    else some { toTrfMotif := anno, ovl_pct := ovl,
                diff := -(ovl * (svlen : Rat)) / (anno.period : Rat) }
  pickTop (fun a b => (compareScoresCode a b).1) scores

/-- `del_annotator` with the intended comparator (span tie-break), used to
exhibit where the source's comparator diverges from spec §4.8. -/
def delAnnotatorIntended (region : TrRegion) (var_start var_end svlen : Int) :
    Option ScoredMotif :=
  let scores := region.annos.filterMap fun anno =>
    let ovl := reciprocalOvl var_start var_end anno.mstart anno.mend
    if ovl = 0 then none
    else some { toTrfMotif := anno, ovl_pct := ovl,
                diff := -(ovl * (svlen : Rat)) / (anno.period : Rat) }
  pickTop compareScoresSpec scores

/-- Motif A of the tie-break counterexample: span 70, right-straddling the
variant interval [100, 200). -/
def exMotifA : TrfMotif :=
  ⟨150, 220, 5, 30, 100, 1, "AAAAT"⟩

/-- Motif B of the tie-break counterexample: span 90, left-straddling; same
overlap (50) and same score (100) as motif A, but the larger span. -/
def exMotifB : TrfMotif :=
  ⟨60, 150, 4, 25, 100, 1, "AAAT"⟩

/-- Region holding the two tied motifs. -/
def exRegionTie : TrRegion := ⟨"chr1", 0, 300, [exMotifA, exMotifB]⟩

/-- The spec's worked example region: one known motif AT over [100, 200). -/
def exRegionAT : TrRegion := ⟨"chr1", 100, 200, [⟨100, 200, 2, 50, 400, 1, "AT"⟩]⟩

/-- C3 (code bug): on two motifs tied on `ovl_pct` and `score`, the source's
`compare_scores` compares `aspan` against `b['start']` (and corrupts
`b['end']`) instead of comparing spans, so `del_annotator` returns the motif
with the *smaller* span; the spec's intended span-descending tie-break picks
the other one.  The second half checks the spec's worked example (DEL
[120,160), svlen 40, motif AT): `ovl_pct = 2/5` and `diff = -8`, where the
code and the spec agree. -/
theorem del_annotator_span_tiebreak_bug :
    delAnnotator exRegionTie 100 200 100 =
      some { toTrfMotif := exMotifA, ovl_pct := 1/2, diff := -10 } ∧
    delAnnotatorIntended exRegionTie 100 200 100 =
      some { toTrfMotif := exMotifB, ovl_pct := 1/2, diff := -25/2 } ∧
    exMotifA.mend - exMotifA.mstart < exMotifB.mend - exMotifB.mstart ∧
    delAnnotator exRegionAT 120 160 40 =
      some { toTrfMotif := ⟨100, 200, 2, 50, 400, 1, "AT"⟩,
             ovl_pct := 2/5, diff := -8 } := by
  refine ⟨?_, ?_, by decide, ?_⟩
  · norm_num [delAnnotator, exRegionTie, exMotifA, exMotifB, pickTop,
      compareScoresCode, reciprocalOvl, List.filterMap]
  · norm_num [delAnnotatorIntended, exRegionTie, exMotifA, exMotifB, pickTop,
      compareScoresSpec, reciprocalOvl, List.filterMap]
  · norm_num [delAnnotator, exRegionAT, pickTop,
      compareScoresCode, reciprocalOvl, List.filterMap]

/-- `TRFAnno.annotate` (trf.py lines 277-302) output INFO fields. -/
structure TrfInfo where
  trf : Bool := false
  trf_ovl : Option Rat := none
  trf_diff : Option Rat := none
  trf_period : Option Int := none
  trf_copies : Option Rat := none
  trf_score : Option Int := none
  trf_entropy : Option Rat := none
  trf_repeat : Option String := none
  deriving Repr, DecidableEq

/-- A VCF entry as the TRF annotator reads it: `truvari.entry_variant_type`,
`truvari.entry_size`, `entry.start` and `entry.stop`. -/
structure TrfEntry where
  svtype : String
  size : Int
  estart : Int
  estop : Int
  deriving Repr, DecidableEq

/-- `TRFAnno.annotate` (trf.py lines 277-302): sets the TRF flag first, then
returns early when the entry size is below `min_length`; otherwise consults
`del_annotator` for DEL (or `ins_annotator`, a TRF-subprocess path passed in
as `insAnno`, for INS) and, if a repeat was found, fills the TRF* fields
(`round`, a Python builtin, is passed in as `round3`/`round1`). -/
def annotateTrf (round3 round1 : Rat → Rat)
    (insAnno : TrfEntry → Option ScoredMotif)
    (region : TrRegion) (entry : TrfEntry) (min_length : Int) : TrfInfo :=
  let sz := entry.size
  if sz < min_length then { trf := true }
  else
    let hit : Option ScoredMotif :=
      if entry.svtype = "DEL" then delAnnotator region entry.estart entry.estop sz
      else if entry.svtype = "INS" then insAnno entry
      else none
    match hit with
    | none => { trf := true }
    | some r =>
      { trf := true,
        trf_ovl := some (round3 r.ovl_pct),
        trf_diff := some (round1 r.diff),
        trf_period := some r.period,
        trf_copies := some r.copies,
        trf_score := some r.score,
        trf_entropy := some r.entropy,
        trf_repeat := some r.repseq }

/-- C9: `TRFAnno.annotate` sets the TRF flag before the minimum-length
check, so an entry inside a TR region whose size is below `min_length` gets
`TRF = True` and none of the other TRF* INFO fields. -/
theorem annotate_trf_small_entry (round3 round1 : Rat → Rat)
    (insAnno : TrfEntry → Option ScoredMotif)
    (region : TrRegion) (entry : TrfEntry) (min_length : Int)
    (h : entry.size < min_length) :
    annotateTrf round3 round1 insAnno region entry min_length =
      ⟨true, none, none, none, none, none, none, none⟩ := by
  simp [annotateTrf, h]

/-- Witness for C9: a 10 bp DEL inside the example region, min length 50. -/
theorem annotate_trf_small_entry_witness :
    annotateTrf id id (fun _ => none) exRegionAT ⟨"DEL", 10, 120, 130⟩ 50 =
      ⟨true, none, none, none, none, none, none, none⟩ :=
  annotate_trf_small_entry id id (fun _ => none) exRegionAT
    ⟨"DEL", 10, 120, 130⟩ 50 (by decide)

/-! ## `check_params`, `check_inputs`, `bench_main` (bench.py lines 326-397, 622-638) -/

/-- The command-line arguments `check_params`/`check_inputs` consult. -/
structure BenchArgs where
  chunksize : Int
  refdist : Int
  extend : Int
  includebed : Option String
  output : String
  base : String
  comp : String
  reference : Option String
  bSample : Option String
  cSample : Option String
  deriving Repr, DecidableEq

/-- The answers the filesystem and the VCF headers give to the queries
`check_params`/`check_sample` make (`os.path.isdir`, `os.path.exists`,
`header.samples`). -/
structure FsEnv where
  output_isdir : Bool
  comp_exists : Bool
  base_exists : Bool
  comp_tbi_exists : Bool
  base_tbi_exists : Bool
  includebed_exists : Bool
  reference_exists : Bool
  base_samples : List String
  comp_samples : List String
  deriving Repr, DecidableEq

/-- Python `str.endswith` (an external builtin), modelled on the character
lists so that concrete evaluations reduce in the kernel. -/
def strEndsWith (s suf : String) : Bool :=
  suf.data.isSuffixOf s.data

/-- `check_params` (bench.py lines 326-369): every check is evaluated; each
failed check appends its logged error and sets the accumulated failure flag;
no check short-circuits the later ones.  Returns `check_fail` with the log. -/
def checkParams (env : FsEnv) (a : BenchArgs) : Bool × List String :=
  let acc : Bool × List String := (false, [])
  let acc := if a.chunksize < a.refdist
    then (true, acc.2 ++ ["--chunksize must be >= --refdist"]) else acc
  let acc := if a.extend ≠ 0 ∧ a.includebed = none
    then (true, acc.2 ++ ["--extend can only be used when --includebed is set"]) else acc
  let acc := if env.output_isdir
    then (true, acc.2 ++ ["Output directory " ++ a.output ++ " already exists"]) else acc
  let acc := if ¬env.comp_exists
    then (true, acc.2 ++ ["File " ++ a.comp ++ " does not exist"]) else acc
  let acc := if ¬env.base_exists
    then (true, acc.2 ++ ["File " ++ a.base ++ " does not exist"]) else acc
  let acc := if ¬(strEndsWith a.comp ".gz")
    then (true, acc.2 ++ ["Comparison vcf " ++ a.comp ++ " does not end with .gz. Must be bgzipped"]) else acc
  let acc := if ¬env.comp_tbi_exists
    then (true, acc.2 ++ ["Comparison vcf index " ++ a.comp ++ ".tbi does not exist. Must be indexed"]) else acc
  let acc := if ¬(strEndsWith a.base ".gz")
    then (true, acc.2 ++ ["Base vcf " ++ a.base ++ " does not end with .gz. Must be bgzipped"]) else acc
  let acc := if ¬env.base_tbi_exists
    then (true, acc.2 ++ ["Base vcf index " ++ a.base ++ ".tbi does not exist. Must be indexed"]) else acc
  let acc := if a.includebed.isSome ∧ ¬env.includebed_exists
    then (true, acc.2 ++ ["Include bed does not exist"]) else acc
  let acc := if a.reference.isSome ∧ ¬env.reference_exists
    then (true, acc.2 ++ ["Reference does not exist"]) else acc
  acc

/-- `check_sample` (bench.py lines 372-387).  Returns `none` where the
source raises: when no sample id was given and the VCF header has no sample
columns, `vcf_file.header.samples[0]` raises an uncaught IndexError — after
the zero-samples check has already recorded its failure. -/
def checkSample (samples : List String) (sample_id : Option String) :
    Option (Bool × String) :=
  let cf1 := match sample_id with
             | some s => decide (s ∉ samples)
             | none => false
  let cf := cf1 || decide (samples.length = 0)
  match sample_id with
  | some s => some (cf, s)
  | none =>
    match samples with
    | [] => none
    | s :: _ => some (cf, s)

/-- `check_inputs` (bench.py lines 390-397): check the base sample, then the
comp sample; an IndexError in either propagates. -/
def checkInputs (baseSamples compSamples : List String)
    (bSample cSample : Option String) : Option Bool :=
  match checkSample baseSamples bSample with
  | none => none
  | some (bchk, _) =>
    match checkSample compSamples cSample with
    | none => none
    | some (cchk, _) => some (bchk || cchk)

/-- How a `bench_main` invocation ends, as far as validation is concerned. -/
inductive MainOutcome where
  | exitFail
  | indexError
  | proceed
  deriving Repr, DecidableEq

/-- The validation prologue of `bench_main` (bench.py lines 622-638):
`if check_params(args) or check_inputs(args): sys.exit(100)` — Python `or`
evaluates `check_inputs` only when `check_params` passed; an exception from
`check_sample` escapes uncaught. `proceed` stands for reaching
`m_bench.run(matcher)`. -/
def benchMainOutcome (env : FsEnv) (a : BenchArgs) : MainOutcome :=
  if (checkParams env a).1 then MainOutcome.exitFail
  else
    match checkInputs env.base_samples env.comp_samples a.bSample a.cSample with
    | none => MainOutcome.indexError
    | some true => MainOutcome.exitFail
    | some false => MainOutcome.proceed

/-- Arguments that pass every `check_params` check. -/
def exArgsOk : BenchArgs :=
  ⟨1000, 500, 0, none, "out", "b.vcf.gz", "c.vcf.gz", none, none, none⟩

/-- An environment where every file check passes but the base VCF has no
SAMPLE columns. -/
def exEnvNoSamples : FsEnv :=
  ⟨false, true, true, true, true, true, true, [], ["S"]⟩

/-- Arguments with two independent parameter errors (chunksize below
refdist, and extend without includebed). -/
def exArgsBad : BenchArgs :=
  ⟨100, 500, 5, none, "out", "b.vcf.gz", "c.vcf.gz", none, none, none⟩

/-- C7 (code bug): `check_params` does accumulate all failures without
short-circuiting (two bad parameters produce two logged errors and a single
failure flag), and a true `check_params`/`check_inputs` flag leads to
`sys.exit(100)` — but when a VCF has no SAMPLE columns and no sample
argument was given, the zero-samples validation check records its failure
and `check_sample` then raises an uncaught IndexError at
`vcf_file.header.samples[0]`, so `bench_main` dies with a traceback instead
of exiting with code 100.  Giving a sample id on the same input exits 100. -/
theorem bench_main_validation_exit :
    (checkParams exEnvNoSamples exArgsOk = (false, [])) ∧
    exEnvNoSamples.base_samples.length = 0 ∧
    benchMainOutcome exEnvNoSamples exArgsOk = MainOutcome.indexError ∧
    MainOutcome.indexError ≠ MainOutcome.exitFail ∧
    benchMainOutcome exEnvNoSamples { exArgsOk with bSample := some "X" } =
      MainOutcome.exitFail ∧
    (checkParams exEnvNoSamples exArgsBad).1 = true ∧
    (checkParams exEnvNoSamples exArgsBad).2 =
      ["--chunksize must be >= --refdist",
       "--extend can only be used when --includebed is set"] := by
  refine ⟨?_, rfl, ?_, by decide, ?_, ?_, ?_⟩ <;> decide

end Truvari
